import Mathlib

/-!
Verification of the poker_bot hand-history and statistics engine.

This file gives a shallow embedding of the data model and the algorithms of
`src/poker/hand_history.py`, `src/poker/player.py` and
`src/poker/stats_calculator.py`, and proves (or refutes) the frozen claims
about them.  Python floats are modelled by `ℚ` (the calculator only ever
divides small integer counters, so no rounding behaviour is at stake),
Python dictionaries by structures whose fields mirror the keys the code
reads and writes, and absent keys by `Option`.
-/

/-- One recorded action.  In the source an action is a plain dictionary
(`HandRecord.add_action` builds it; `StatsCalculator` reads it through
`dict.get`, so any key may be absent).  A field value `none` models a
missing key. -/
structure ActionDict where
  player : Option String := none
  action_type : Option String := none
  amount : Option ℚ := none
  street : Option String := none
  tstamp : Option String := none
deriving Repr, DecidableEq

/-- Python `str.lower()`: lower-case every character.  (The action-type
tokens this codebase compares are ASCII, where Python lowering and
per-character lowering agree.) -/
def pyLower (s : String) : String :=
  ⟨s.data.map Char.toLower⟩

/-- The source reads the action type as `action.get("action_type", "").lower()`. -/
def ActionDict.lowerType (a : ActionDict) : String :=
  pyLower (a.action_type.getD "")

/-- Model of a library `datetime` instant.  The code under verification
views an instant only through `isoformat` (serialisation) and
`fromisoformat` (parsing); the standard library guarantees that
`fromisoformat(d.isoformat())` recovers `d` and that `isoformat` never
returns the empty string.  We therefore identify an instant with its
ISO-8601 text. -/
structure Datetime where
  iso : String
deriving Repr, DecidableEq

def Datetime.isoformat (d : Datetime) : String := d.iso

def Datetime.fromisoformat (s : String) : Datetime := ⟨s⟩

/-- Record of a completed poker hand (`HandRecord` dataclass).  The dataclass
default for `hand_id` is a fresh uuid prefix and for `timestamp` the current
instant; both are opaque to every algorithm verified here, so the embedded
defaults are arbitrary. -/
structure HandRecord where
  hand_id : String := ""
  session_id : Option String := none
  timestamp : Datetime := ⟨""⟩
  hero_cards : List String := []
  board : List String := []
  players : List String := []
  hero_position : Option String := none
  small_blind : ℚ := 0
  big_blind : ℚ := 0
  actions : List ActionDict := []
  result_bb : ℚ := 0
  winner : Option String := none
  went_to_showdown : Bool := false
  ai_action : Option String := none
  ai_reasoning : Option String := none
  ai_confidence : Option ℚ := none
deriving Repr, DecidableEq

/-- Statistics for a poker player (`PlayerStats` dataclass), with every
field of the source dataclass.  The per-position breakdown, a dict of
dicts in the source, is embedded as an association list. -/
structure PlayerStats where
  hands : Nat := 0
  vpip : ℚ := 0
  pfr : ℚ := 0
  three_bet : ℚ := 0
  fold_to_3bet : ℚ := 0
  af : ℚ := 0
  wtsd : ℚ := 0
  wssd : ℚ := 0
  cbet : ℚ := 0
  vpip_opportunities : Nat := 0
  vpip_count : Nat := 0
  pfr_opportunities : Nat := 0
  pfr_count : Nat := 0
  three_bet_opportunities : Nat := 0
  three_bet_count : Nat := 0
  fold_to_3bet_opportunities : Nat := 0
  fold_to_3bet_count : Nat := 0
  bets_raises : Nat := 0
  calls : Nat := 0
  showdown_opportunities : Nat := 0
  showdown_count : Nat := 0
  showdown_wins : Nat := 0
  cbet_opportunities : Nat := 0
  cbet_count : Nat := 0
  stats_by_position : List (String × List (String × ℚ)) := []
deriving Repr, DecidableEq

/-- Inner loop of `_calculate_vpip` for one hand: the loop scans the
hand's actions and breaks at the first action of the player whose street
(defaulted to preflop when the key is absent) is preflop and whose
lowered type is call, raise or bet — i.e. it tests existence of such an
action. -/
def vpipHand (player : String) (h : HandRecord) : Bool :=
  h.actions.any fun a =>
    a.player == some player &&
    a.street.getD "preflop" == "preflop" &&
    (a.lowerType == "call" || a.lowerType == "raise" || a.lowerType == "bet")

/-- `StatsCalculator._calculate_vpip`: one opportunity per hand. -/
def calculate_vpip (player : String) (hands : List HandRecord) : ℚ :=
  let opportunities := hands.length
  let voluntarily_put_in := hands.countP (fun h => vpipHand player h)
  if opportunities = 0 then 0
  else ((voluntarily_put_in : ℚ) / (opportunities : ℚ)) * 100

/-- Inner loop of `_calculate_pfr` for one hand: breaks at the first
preflop action of the player whose lowered type is exactly raise. -/
def pfrHand (player : String) (h : HandRecord) : Bool :=
  h.actions.any fun a =>
    a.player == some player &&
    a.street.getD "preflop" == "preflop" &&
    a.lowerType == "raise"

/-- `StatsCalculator._calculate_pfr`: one opportunity per hand. -/
def calculate_pfr (player : String) (hands : List HandRecord) : ℚ :=
  let opportunities := hands.length
  let pfr_count := hands.countP (fun h => pfrHand player h)
  if opportunities = 0 then 0
  else ((pfr_count : ℚ) / (opportunities : ℚ)) * 100

/-- Per-hand loop of `_calculate_3bet`, carrying the two mutable flags
`raise_seen` and `player_acted`.  The result is `none` when the loop adds
no opportunity, `some occurred` when it adds one (`occurred` = it also
counted a 3-bet).  The loop breaks at the first non-preflop street.  In
the one case where the source keeps scanning after recording an
opportunity without a 3-bet (a non-raise action of the player after a
seen raise), `player_acted` is set, so no later iteration can touch
either counter; we return `some false` at that point. -/
def threeBetScan (player : String) :
    List ActionDict → Bool → Bool → Option Bool
  | [], _, _ => none
  | a :: rest, raiseSeen, playerActed =>
    if a.street != some "preflop" then none
    else if a.lowerType == "raise" && a.player != some player then
      threeBetScan player rest true playerActed
    else if a.lowerType == "raise" && a.player == some player &&
        raiseSeen && !playerActed then
      some true
    else if a.player == some player && raiseSeen && !playerActed then
      some false
    else if a.player == some player then
      threeBetScan player rest raiseSeen true
    else
      threeBetScan player rest raiseSeen playerActed

/-- `StatsCalculator._calculate_3bet`. -/
def calculate_3bet (player : String) (hands : List HandRecord) : ℚ :=
  let opportunities :=
    hands.countP (fun h => (threeBetScan player h.actions false false).isSome)
  let three_bet_count :=
    hands.countP (fun h => threeBetScan player h.actions false false == some true)
  if opportunities = 0 then 0
  else ((three_bet_count : ℚ) / (opportunities : ℚ)) * 100

/-- Per-hand loop of `_calculate_fold_to_3bet`, carrying the flags
`player_raised` and `faced_3bet`.  `none` when the hand yields no
opportunity, `some folded` when it does (the loop then breaks). -/
def foldTo3betScan (player : String) :
    List ActionDict → Bool → Bool → Option Bool
  | [], _, _ => none
  | a :: rest, playerRaised, faced3bet =>
    if a.street != some "preflop" then none
    else if a.player == some player then
      if a.lowerType == "raise" && !playerRaised then
        foldTo3betScan player rest true faced3bet
      else if faced3bet then
        some (a.lowerType == "fold")
      else
        foldTo3betScan player rest playerRaised faced3bet
    else if playerRaised && a.lowerType == "raise" then
      foldTo3betScan player rest playerRaised true
    else
      foldTo3betScan player rest playerRaised faced3bet

/-- `StatsCalculator._calculate_fold_to_3bet`. -/
def calculate_fold_to_3bet (player : String) (hands : List HandRecord) : ℚ :=
  let opportunities :=
    hands.countP (fun h => (foldTo3betScan player h.actions false false).isSome)
  let fold_count :=
    hands.countP (fun h => foldTo3betScan player h.actions false false == some true)
  if opportunities = 0 then 0
  else ((fold_count : ℚ) / (opportunities : ℚ)) * 100

/-- Bet-plus-raise actions of the player, summed over all actions of all
hands, any street (`_calculate_af` has no street filter at all). -/
def afBetsRaises (player : String) (hands : List HandRecord) : Nat :=
  (hands.map (fun h => h.actions.countP (fun a =>
    a.player == some player &&
    (a.lowerType == "bet" || a.lowerType == "raise")))).sum

/-- Call actions of the player, summed over all actions of all hands. -/
def afCalls (player : String) (hands : List HandRecord) : Nat :=
  (hands.map (fun h => h.actions.countP (fun a =>
    a.player == some player && a.lowerType == "call"))).sum

/-- `StatsCalculator._calculate_af`. -/
def calculate_af (player : String) (hands : List HandRecord) : ℚ :=
  let bets_raises := afBetsRaises player hands
  let calls := afCalls player hands
  if calls = 0 then (if bets_raises > 0 then (bets_raises : ℚ) else 0)
  else (bets_raises : ℚ) / (calls : ℚ)

/-- Inner loop of `_calculate_wtsd`: did the player take any flop action
(street key exactly "flop")? -/
def sawFlopHand (player : String) (h : HandRecord) : Bool :=
  h.actions.any fun a => a.player == some player && a.street == some "flop"

/-- `StatsCalculator._calculate_wtsd`. -/
def calculate_wtsd (player : String) (hands : List HandRecord) : ℚ :=
  let saw_flop := hands.countP (fun h => sawFlopHand player h)
  let went := hands.countP (fun h =>
    sawFlopHand player h && h.went_to_showdown && h.players.contains player)
  if saw_flop = 0 then 0
  else ((went : ℚ) / (saw_flop : ℚ)) * 100

/-- `StatsCalculator._calculate_wssd`. -/
def calculate_wssd (player : String) (hands : List HandRecord) : ℚ :=
  let showdowns := hands.countP (fun h =>
    h.went_to_showdown && h.players.contains player)
  let wins := hands.countP (fun h =>
    h.went_to_showdown && h.players.contains player && h.winner == some player)
  if showdowns = 0 then 0
  else ((wins : ℚ) / (showdowns : ℚ)) * 100

/-- Aggressor flag of `_calculate_cbet`: the first loop scans until the
first non-preflop street and records whether the player made any preflop
raise (no break on a match, so it is plain existence over the preflop
prefix). -/
def cbetAggressor (player : String) (h : HandRecord) : Bool :=
  (h.actions.takeWhile (fun a => a.street == some "preflop")).any
    (fun a => a.player == some player && a.lowerType == "raise")

/-- Second loop of `_calculate_cbet`: the first action of the player whose
street is exactly "flop", scanning the whole action list. -/
def cbetFlopAction (player : String) (h : HandRecord) : Option ActionDict :=
  h.actions.find? (fun a => a.street == some "flop" && a.player == some player)

/-- Per-hand result of `_calculate_cbet`: `none` when the hand yields no
opportunity, otherwise whether the flop action was a bet or raise. -/
def cbetScan (player : String) (h : HandRecord) : Option Bool :=
  if cbetAggressor player h then
    (cbetFlopAction player h).map
      (fun a => a.lowerType == "bet" || a.lowerType == "raise")
  else none

/-- `StatsCalculator._calculate_cbet`. -/
def calculate_cbet (player : String) (hands : List HandRecord) : ℚ :=
  let opportunities := hands.countP (fun h => (cbetScan player h).isSome)
  let cbet_count := hands.countP (fun h => cbetScan player h == some true)
  if opportunities = 0 then 0
  else ((cbet_count : ℚ) / (opportunities : ℚ)) * 100

/-- `StatsCalculator.calculate_stats`.  The source builds a default
`PlayerStats`, returns it unchanged on an empty input, filters the hands
in which the player is listed, sets `hands`, returns early when that
count is zero, and otherwise fills the eight rate statistics. -/
def calculate_stats (player_name : String) (hands : List HandRecord) :
    PlayerStats :=
  if hands.isEmpty then {}
  else
    let player_hands := hands.filter (fun h => h.players.contains player_name)
    if player_hands.length = 0 then { hands := player_hands.length }
    else
      { hands := player_hands.length
        vpip := calculate_vpip player_name player_hands
        pfr := calculate_pfr player_name player_hands
        three_bet := calculate_3bet player_name player_hands
        fold_to_3bet := calculate_fold_to_3bet player_name player_hands
        af := calculate_af player_name player_hands
        wtsd := calculate_wtsd player_name player_hands
        wssd := calculate_wssd player_name player_hands
        cbet := calculate_cbet player_name player_hands }

/-! ## Bridging lemmas: field projections of `calculate_stats` -/

theorem calculate_stats_vpip (p : String) (H : List HandRecord) :
    (calculate_stats p H).vpip =
      calculate_vpip p (H.filter (fun h => h.players.contains p)) := by
  simp only [calculate_stats]
  split
  next hH =>
    have hnil : H = [] := List.isEmpty_iff.mp hH
    subst hnil
    simp [calculate_vpip]
  next hH =>
    split
    next hlen =>
      rw [List.length_eq_zero] at hlen
      rw [hlen]
      simp [calculate_vpip]
    next hlen => rfl

theorem calculate_stats_pfr (p : String) (H : List HandRecord) :
    (calculate_stats p H).pfr =
      calculate_pfr p (H.filter (fun h => h.players.contains p)) := by
  simp only [calculate_stats]
  split
  next hH =>
    have hnil : H = [] := List.isEmpty_iff.mp hH
    subst hnil
    simp [calculate_pfr]
  next hH =>
    split
    next hlen =>
      rw [List.length_eq_zero] at hlen
      rw [hlen]
      simp [calculate_pfr]
    next hlen => rfl

theorem calculate_stats_three_bet (p : String) (H : List HandRecord) :
    (calculate_stats p H).three_bet =
      calculate_3bet p (H.filter (fun h => h.players.contains p)) := by
  simp only [calculate_stats]
  split
  next hH =>
    have hnil : H = [] := List.isEmpty_iff.mp hH
    subst hnil
    simp [calculate_3bet]
  next hH =>
    split
    next hlen =>
      rw [List.length_eq_zero] at hlen
      rw [hlen]
      simp [calculate_3bet]
    next hlen => rfl

theorem calculate_stats_fold_to_3bet (p : String) (H : List HandRecord) :
    (calculate_stats p H).fold_to_3bet =
      calculate_fold_to_3bet p (H.filter (fun h => h.players.contains p)) := by
  simp only [calculate_stats]
  split
  next hH =>
    have hnil : H = [] := List.isEmpty_iff.mp hH
    subst hnil
    simp [calculate_fold_to_3bet]
  next hH =>
    split
    next hlen =>
      rw [List.length_eq_zero] at hlen
      rw [hlen]
      simp [calculate_fold_to_3bet]
    next hlen => rfl

theorem calculate_stats_af (p : String) (H : List HandRecord) :
    (calculate_stats p H).af =
      calculate_af p (H.filter (fun h => h.players.contains p)) := by
  simp only [calculate_stats]
  split
  next hH =>
    have hnil : H = [] := List.isEmpty_iff.mp hH
    subst hnil
    simp [calculate_af, afBetsRaises, afCalls]
  next hH =>
    split
    next hlen =>
      rw [List.length_eq_zero] at hlen
      rw [hlen]
      simp [calculate_af, afBetsRaises, afCalls]
    next hlen => rfl

theorem calculate_stats_cbet (p : String) (H : List HandRecord) :
    (calculate_stats p H).cbet =
      calculate_cbet p (H.filter (fun h => h.players.contains p)) := by
  simp only [calculate_stats]
  split
  next hH =>
    have hnil : H = [] := List.isEmpty_iff.mp hH
    subst hnil
    simp [calculate_cbet]
  next hH =>
    split
    next hlen =>
      rw [List.length_eq_zero] at hlen
      rw [hlen]
      simp [calculate_cbet]
    next hlen => rfl

/-! ## C1: VPIP -/

/-- The VPIP occurrence condition exactly as the claim states it: the
player's FIRST preflop action (skipping recorded forced blind posts) is
itself call, bet or raise — a hand whose first preflop action is a check
or fold does not count, even if the player voluntarily calls later. -/
def vpipClaimHand (p : String) (h : HandRecord) : Bool :=
  match (h.actions.filter (fun a =>
      a.player == some p && a.street.getD "preflop" == "preflop" &&
      a.lowerType != "small_blind" && a.lowerType != "big_blind" &&
      a.lowerType != "post")).head? with
  | some a =>
    a.lowerType == "call" || a.lowerType == "bet" || a.lowerType == "raise"
  | none => false

/-- The whole VPIP statistic as the claim states it. -/
def vpipClaimRate (p : String) (H : List HandRecord) : ℚ :=
  let ph := H.filter (fun h => h.players.contains p)
  if ph.length = 0 then 0
  else 100 * (ph.countP (fun h => vpipClaimHand p h) : ℚ) / (ph.length : ℚ)

/-- A hand in which the player's first preflop action is a check (big
blind checking) and a later preflop action is a call: the code counts it
towards VPIP, the claim's first-action rule does not. -/
def vpipCexHand : HandRecord :=
  { players := ["Hero", "Villain"]
    actions :=
      [ { player := some "Hero", action_type := some "check",
          street := some "preflop" }
      , { player := some "Villain", action_type := some "raise",
          street := some "preflop" }
      , { player := some "Hero", action_type := some "call",
          street := some "preflop" } ] }

/-- C1 counterexample: on `vpipCexHand` the implementation returns a VPIP
of 100 while the claim's first-preflop-action rule yields 0, so the claim
as stated is false of the code. -/
theorem vpip_claim_counterexample :
    (calculate_stats "Hero" [vpipCexHand]).vpip = 100 ∧
      vpipClaimRate "Hero" [vpipCexHand] = 0 ∧ (100 : ℚ) ≠ 0 := by
  refine ⟨?_, ?_, by norm_num⟩
  · have h : (calculate_stats "Hero" [vpipCexHand]).vpip =
        (((1 : ℕ) : ℚ) / ((1 : ℕ) : ℚ)) * 100 := rfl
    rw [h]; norm_num
  · have h : vpipClaimRate "Hero" [vpipCexHand] =
        100 * ((0 : ℕ) : ℚ) / ((1 : ℕ) : ℚ) := rfl
    rw [h]; norm_num

/-- C1 (amended): `calculate_stats(p, H).vpip` equals 100 times the number
of hands (among those in `H` with `p` listed in the hand's players) in
which `p` has AT LEAST ONE preflop action of type call, bet or raise
(rather than "the first preflop action is ..."), divided by the number of
hands in `H` with `p` among the players, and 0 when that denominator
is 0. -/
theorem vpip_counts_voluntary_preflop (p : String) (H : List HandRecord) :
    (calculate_stats p H).vpip =
      (if (H.filter (fun h => h.players.contains p)).length = 0 then 0
       else 100 * ((H.filter (fun h => h.players.contains p)).countP
           (fun h => h.actions.any fun a =>
             a.player == some p && a.street.getD "preflop" == "preflop" &&
             (a.lowerType == "call" || a.lowerType == "raise" ||
              a.lowerType == "bet")) : ℚ)
         / (((H.filter (fun h => h.players.contains p)).length : ℕ) : ℚ)) := by
  rw [calculate_stats_vpip]
  simp only [calculate_vpip, vpipHand]
  by_cases hc : (H.filter (fun h => h.players.contains p)).length = 0
  · rw [if_pos hc, if_pos hc]
  · rw [if_neg hc, if_neg hc]
    ring

/-! ## C10: PFR is bounded by VPIP -/

/-- C10: for every player and hand list, the preflop-raise rate is at most
the voluntarily-put-money-in rate: both statistics divide by the same
per-hand opportunity count, and every hand with a preflop raise by the
player is also a hand with a preflop call/raise/bet by the player. -/
theorem pfr_le_vpip (p : String) (H : List HandRecord) :
    (calculate_stats p H).pfr ≤ (calculate_stats p H).vpip := by
  rw [calculate_stats_pfr, calculate_stats_vpip]
  simp only [calculate_pfr, calculate_vpip]
  by_cases hc : (H.filter (fun h => h.players.contains p)).length = 0
  · rw [if_pos hc, if_pos hc]
  · rw [if_neg hc, if_neg hc]
    have hcount :
        (H.filter (fun h => h.players.contains p)).countP (fun h => pfrHand p h) ≤
          (H.filter (fun h => h.players.contains p)).countP
            (fun h => vpipHand p h) := by
      apply List.countP_mono_left
      intro h _ hp
      rw [pfrHand, List.any_eq_true] at hp
      obtain ⟨a, ha, hpred⟩ := hp
      rw [vpipHand, List.any_eq_true]
      refine ⟨a, ha, ?_⟩
      simp only [Bool.and_eq_true, Bool.or_eq_true] at hpred ⊢
      exact ⟨hpred.1, Or.inl (Or.inr hpred.2)⟩
    have hn : (0 : ℚ) <
        (((H.filter (fun h => h.players.contains p)).length : ℕ) : ℚ) := by
      exact_mod_cast Nat.pos_of_ne_zero hc
    have hdiv :
        (((H.filter (fun h => h.players.contains p)).countP
            (fun h => pfrHand p h) : ℕ) : ℚ) /
            (((H.filter (fun h => h.players.contains p)).length : ℕ) : ℚ) ≤
          (((H.filter (fun h => h.players.contains p)).countP
            (fun h => vpipHand p h) : ℕ) : ℚ) /
            (((H.filter (fun h => h.players.contains p)).length : ℕ) : ℚ) := by
      apply div_le_div_of_nonneg_right ?_ hn.le
      exact_mod_cast hcount
    exact mul_le_mul_of_nonneg_right hdiv (by norm_num)

/-! ## C2: 3-bet -/

/-- The 3-bet opportunity/occurrence rule as the claim states it, per
hand: among the preflop actions (those scanned before the first
non-preflop street key), if a raise occurs before the player's first
action of the sequence, that first action is the opportunity, and the
occurrence condition is that it is itself a raise.  `none` = no
opportunity, `some b` = opportunity with occurrence flag `b`. -/
def threeBetSpec (p : String) (l : List ActionDict) : Option Bool :=
  let pre := l.takeWhile (fun a => a.street == some "preflop")
  if (pre.takeWhile (fun a => a.player != some p)).any
      (fun a => a.lowerType == "raise") then
    (pre.dropWhile (fun a => a.player != some p)).head?.map
      (fun b => b.lowerType == "raise")
  else none

/-- Once `player_acted` is set, the `_calculate_3bet` loop can no longer
touch either counter. -/
theorem threeBetScan_acted (p : String) (l : List ActionDict) :
    ∀ rs, threeBetScan p l rs true = none := by
  induction l with
  | nil => intro rs; rfl
  | cons a t ih =>
    intro rs
    simp only [threeBetScan]
    split
    · rfl
    · split
      · exact ih _
      · split
        · next h => simp at h
        · split
          · next h => simp at h
          · split
            · exact ih _
            · exact ih _

/-- The `_calculate_3bet` per-hand loop, started with `player_acted`
unset, computes exactly the claim's first-action rule (the flag
`raise_seen` carried in as a disjunct). -/
theorem threeBetScan_eq_aux (p : String) (l : List ActionDict) :
    ∀ rs, threeBetScan p l rs false =
      (if rs || ((l.takeWhile (fun a => a.street == some "preflop")).takeWhile
            (fun a => a.player != some p)).any (fun a => a.lowerType == "raise") then
        ((l.takeWhile (fun a => a.street == some "preflop")).dropWhile
            (fun a => a.player != some p)).head?.map
          (fun b => b.lowerType == "raise")
       else none) := by
  induction l with
  | nil => intro rs; simp [threeBetScan]
  | cons a t ih =>
    intro rs
    by_cases hst : a.street = some "preflop"
    · by_cases hp : a.player = some p
      · by_cases hr : a.lowerType = "raise"
        · cases rs <;>
            simp [threeBetScan, hst, hp, hr, threeBetScan_acted]
        · cases rs <;>
            simp [threeBetScan, hst, hp, hr, threeBetScan_acted]
      · by_cases hr : a.lowerType = "raise"
        · simp [threeBetScan, hst, hp, hr, ih]
        · simp [threeBetScan, hst, hp, hr, ih]
    · simp [threeBetScan, hst]

/-- With both flags initially unset (as `_calculate_3bet` starts each
hand), the loop equals the claim's rule. -/
theorem threeBetScan_eq_spec (p : String) (l : List ActionDict) :
    threeBetScan p l false false = threeBetSpec p l := by
  simpa [threeBetSpec] using threeBetScan_eq_aux p l false

/-- C2: `calculate_stats(p, H).three_bet` counts as an opportunity every
hand (among those with `p` listed) where, scanning preflop actions in
order, a raise by another player precedes `p`'s first action, counts as
an occurrence those opportunities where that action is itself a raise,
and returns `100 * occurrences / opportunities` (0 when there are no
opportunities). -/
theorem three_bet_formula (p : String) (H : List HandRecord) :
    (calculate_stats p H).three_bet =
      (if (H.filter (fun h => h.players.contains p)).countP
          (fun h => (threeBetSpec p h.actions).isSome) = 0 then 0
       else 100 * ((H.filter (fun h => h.players.contains p)).countP
            (fun h => threeBetSpec p h.actions == some true) : ℚ) /
          (((H.filter (fun h => h.players.contains p)).countP
            (fun h => (threeBetSpec p h.actions).isSome) : ℕ) : ℚ)) := by
  rw [calculate_stats_three_bet]
  simp only [calculate_3bet]
  have he : ∀ h : HandRecord,
      threeBetScan p h.actions false false = threeBetSpec p h.actions :=
    fun h => threeBetScan_eq_spec p h.actions
  simp only [he]
  by_cases hc : (H.filter (fun h => h.players.contains p)).countP
      (fun h => (threeBetSpec p h.actions).isSome) = 0
  · rw [if_pos hc, if_pos hc]
  · rw [if_neg hc, if_neg hc]
    ring

/-! ## C3: Fold to 3-bet -/

/-- Phase 3 of the `_calculate_fold_to_3bet` loop: once `player_raised`
and `faced_3bet` are both set, the result is determined by the player's
next action of the preflop sequence (fold or not), `none` if there is
none. -/
theorem foldTo3betScan_faced (p : String) (l : List ActionDict) :
    foldTo3betScan p l true true =
      ((l.takeWhile (fun a => a.street == some "preflop")).dropWhile
          (fun a => a.player != some p)).head?.map
        (fun b => b.lowerType == "fold") := by
  induction l with
  | nil => rfl
  | cons a t ih =>
    by_cases hst : a.street = some "preflop"
    · by_cases hp : a.player = some p
      · simp [foldTo3betScan, hst, hp]
      · simp [foldTo3betScan, hst, hp, ih]
    · simp [foldTo3betScan, hst]

/-- Phase 2 of the loop: with `player_raised` set and `faced_3bet` unset,
the scan waits for a raise by a different player (ignoring the player's
own further actions), then behaves as phase 3. -/
theorem foldTo3betScan_raised (p : String) (l : List ActionDict) :
    foldTo3betScan p l true false =
      ((((l.takeWhile (fun a => a.street == some "preflop")).dropWhile
          (fun a => !(a.player != some p && a.lowerType == "raise"))).tail).dropWhile
            (fun a => a.player != some p)).head?.map
        (fun b => b.lowerType == "fold") := by
  induction l with
  | nil => rfl
  | cons a t ih =>
    by_cases hst : a.street = some "preflop"
    · by_cases hp : a.player = some p
      · simp [foldTo3betScan, hst, hp, ih]
      · by_cases hr : a.lowerType = "raise"
        · simp [foldTo3betScan, hst, hp, hr, foldTo3betScan_faced]
        · simp [foldTo3betScan, hst, hp, hr, ih]
    · simp [foldTo3betScan, hst]

/-- The whole `_calculate_fold_to_3bet` per-hand loop: wait for the
player's first preflop raise, then for a later preflop raise by a
different player, then decide by the player's next preflop action. -/
theorem foldTo3betScan_eq_spec (p : String) (l : List ActionDict) :
    foldTo3betScan p l false false =
      ((((l.takeWhile (fun a => a.street == some "preflop")).dropWhile
          (fun a => !(a.player == some p && a.lowerType == "raise"))).tail.dropWhile
            (fun a => !(a.player != some p && a.lowerType == "raise"))).tail.dropWhile
              (fun a => a.player != some p)).head?.map
        (fun b => b.lowerType == "fold") := by
  induction l with
  | nil => rfl
  | cons a t ih =>
    by_cases hst : a.street = some "preflop"
    · by_cases hp : a.player = some p
      · by_cases hr : a.lowerType = "raise"
        · simp [foldTo3betScan, hst, hp, hr, foldTo3betScan_raised]
        · simp [foldTo3betScan, hst, hp, hr, ih]
      · simp [foldTo3betScan, hst, hp, ih]
    · simp [foldTo3betScan, hst]

/-- What `_calculate_fold_to_3bet` actually computes per hand (amended
claim): among the preflop actions, find the player's FIRST preflop raise
(regardless of whether someone raised earlier), then the first later
raise by a different player (ignoring the player's own intervening
actions), then the player's first action after that raise; that action is
the opportunity and a fold is the occurrence. -/
def foldTo3betSpec (p : String) (l : List ActionDict) : Option Bool :=
  ((((l.takeWhile (fun a => a.street == some "preflop")).dropWhile
      (fun a => !(a.player == some p && a.lowerType == "raise"))).tail.dropWhile
        (fun a => !(a.player != some p && a.lowerType == "raise"))).tail.dropWhile
          (fun a => a.player != some p)).head?.map
    (fun b => b.lowerType == "fold")

/-- The fold-to-3-bet rule exactly as the claim states it, per hand: the
player must have made THE first preflop raise of the hand; afterwards a
further raise by someone else must arrive before the player acts again;
the player's next action then decides fold or not. -/
def foldTo3betClaim (p : String) (l : List ActionDict) : Option Bool :=
  let pre := l.takeWhile (fun a => a.street == some "preflop")
  match pre.dropWhile (fun a => a.lowerType != "raise") with
  | [] => none
  | r :: t1 =>
    if r.player == some p then
      match t1.dropWhile
          (fun a => a.player != some p && a.lowerType != "raise") with
      | [] => none
      | x :: t2 =>
        if x.player == some p then none
        else (t2.dropWhile (fun a => a.player != some p)).head?.map
          (fun b => b.lowerType == "fold")
    else none

/-- The whole fold-to-3-bet statistic as the claim states it. -/
def foldTo3betClaimRate (p : String) (H : List HandRecord) : ℚ :=
  let ph := H.filter (fun h => h.players.contains p)
  let opp := ph.countP (fun h => (foldTo3betClaim p h.actions).isSome)
  let occ := ph.countP (fun h => foldTo3betClaim p h.actions == some true)
  if opp = 0 then 0 else 100 * (occ : ℚ) / (opp : ℚ)

/-- A hand in which the Villain makes the first preflop raise, the Hero
3-bets, the Villain 4-bets and the Hero folds: the Hero did NOT make the
first preflop raise, so the claim's rule yields no opportunity, but the
implementation counts an opportunity and a fold. -/
def foldCexHand : HandRecord :=
  { players := ["Hero", "Villain"]
    actions :=
      [ { player := some "Villain", action_type := some "raise",
          street := some "preflop" }
      , { player := some "Hero", action_type := some "raise",
          street := some "preflop" }
      , { player := some "Villain", action_type := some "raise",
          street := some "preflop" }
      , { player := some "Hero", action_type := some "fold",
          street := some "preflop" } ] }

/-- C3 counterexample: on `foldCexHand` the implementation returns a
fold-to-3-bet of 100 while the claim's first-raise rule yields 0, so the
claim as stated is false of the code. -/
theorem fold_to_3bet_claim_counterexample :
    (calculate_stats "Hero" [foldCexHand]).fold_to_3bet = 100 ∧
      foldTo3betClaimRate "Hero" [foldCexHand] = 0 ∧ (100 : ℚ) ≠ 0 := by
  refine ⟨?_, rfl, by norm_num⟩
  have h : (calculate_stats "Hero" [foldCexHand]).fold_to_3bet =
      (((1 : ℕ) : ℚ) / ((1 : ℕ) : ℚ)) * 100 := rfl
  rw [h]; norm_num

/-- C3 (amended): `calculate_stats(p, H).fold_to_3bet` counts as an
opportunity every hand (among those with `p` listed) where `p` made a
preflop raise — `p`'s first raise, NOT necessarily the hand's first — and
a later preflop raise by a different player follows it, and `p` takes a
further preflop action after that raise; the occurrence condition is that
this facing action is a fold, and the result is
`100 * occurrences / opportunities` (0 when there are no
opportunities). -/
theorem fold_to_3bet_formula (p : String) (H : List HandRecord) :
    (calculate_stats p H).fold_to_3bet =
      (if (H.filter (fun h => h.players.contains p)).countP
          (fun h => (foldTo3betSpec p h.actions).isSome) = 0 then 0
       else 100 * ((H.filter (fun h => h.players.contains p)).countP
            (fun h => foldTo3betSpec p h.actions == some true) : ℚ) /
          (((H.filter (fun h => h.players.contains p)).countP
            (fun h => (foldTo3betSpec p h.actions).isSome) : ℕ) : ℚ)) := by
  rw [calculate_stats_fold_to_3bet]
  simp only [calculate_fold_to_3bet]
  have he : ∀ h : HandRecord,
      foldTo3betScan p h.actions false false = foldTo3betSpec p h.actions :=
    fun h => foldTo3betScan_eq_spec p h.actions
  simp only [he]
  by_cases hc : (H.filter (fun h => h.players.contains p)).countP
      (fun h => (foldTo3betSpec p h.actions).isSome) = 0
  · rw [if_pos hc, if_pos hc]
  · rw [if_neg hc, if_neg hc]
    ring

/-! ## C4: Continuation bet -/

/-- `find?` succeeds exactly when some element satisfies the predicate. -/
theorem find?_isSome_eq_any (l : List α) (q : α → Bool) :
    (l.find? q).isSome = l.any q := by
  induction l with
  | nil => rfl
  | cons a t ih =>
    by_cases hq : q a = true
    · simp [List.find?_cons, hq]
    · simp [List.find?_cons, hq, ih]

/-- C4 opportunity as the code has it (amended claim): the player made
at least one preflop raise — NOT necessarily the sole one — and has a
flop action. -/
def cbetOppSpec (p : String) (h : HandRecord) : Bool :=
  (h.actions.takeWhile (fun a => a.street == some "preflop")).any
    (fun a => a.player == some p && a.lowerType == "raise") &&
  h.actions.any (fun a => a.street == some "flop" && a.player == some p)

/-- C4 occurrence (amended claim): additionally, the player's first flop
action has type bet or raise. -/
def cbetOccSpec (p : String) (h : HandRecord) : Bool :=
  cbetOppSpec p h &&
  ((h.actions.find? (fun a => a.street == some "flop" && a.player == some p)).map
    (fun a => a.lowerType == "bet" || a.lowerType == "raise")).getD false

theorem cbet_isSome_eq (p : String) (h : HandRecord) :
    (cbetScan p h).isSome = cbetOppSpec p h := by
  unfold cbetScan cbetOppSpec cbetFlopAction cbetAggressor
  by_cases hagg : ((h.actions.takeWhile (fun a => a.street == some "preflop")).any
      (fun a => a.player == some p && a.lowerType == "raise")) = true
  · simp only [hagg, if_true, Option.isSome_map', Bool.true_and]
    exact find?_isSome_eq_any _ _
  · simp only [Bool.not_eq_true] at hagg
    simp [hagg]

theorem cbet_some_true_eq (p : String) (h : HandRecord) :
    (cbetScan p h == some true) = cbetOccSpec p h := by
  unfold cbetScan cbetOccSpec cbetOppSpec cbetFlopAction cbetAggressor
  by_cases hagg : ((h.actions.takeWhile (fun a => a.street == some "preflop")).any
      (fun a => a.player == some p && a.lowerType == "raise")) = true
  · simp only [hagg, if_true, Bool.true_and]
    cases hfind : h.actions.find?
        (fun a => a.street == some "flop" && a.player == some p) with
    | none =>
      have hany : h.actions.any
          (fun a => a.street == some "flop" && a.player == some p) = false := by
        rw [← find?_isSome_eq_any, hfind]; rfl
      simp [hfind, hany]
    | some b =>
      have hany : h.actions.any
          (fun a => a.street == some "flop" && a.player == some p) = true := by
        rw [← find?_isSome_eq_any, hfind]; rfl
      cases hfb : (b.lowerType == "bet" || b.lowerType == "raise") <;>
        simp [hfind, hany, hfb]
  · simp only [Bool.not_eq_true] at hagg
    simp [hagg]

/-- The c-bet rule exactly as the claim states it, per hand: the player
must be the SOLE preflop raiser (no other player has a preflop raise),
and must have a flop action; the occurrence condition is that this flop
action is a bet or raise. -/
def cbetClaim (p : String) (h : HandRecord) : Option Bool :=
  let pre := h.actions.takeWhile (fun a => a.street == some "preflop")
  if pre.any (fun a => a.player == some p && a.lowerType == "raise") &&
      !(pre.any (fun a => a.player != some p && a.lowerType == "raise")) then
    (h.actions.find? (fun a => a.street == some "flop" && a.player == some p)).map
      (fun a => a.lowerType == "bet" || a.lowerType == "raise")
  else none

/-- The whole c-bet statistic as the claim states it. -/
def cbetClaimRate (p : String) (H : List HandRecord) : ℚ :=
  let ph := H.filter (fun h => h.players.contains p)
  let opp := ph.countP (fun h => (cbetClaim p h).isSome)
  let occ := ph.countP (fun h => cbetClaim p h == some true)
  if opp = 0 then 0 else 100 * (occ : ℚ) / (opp : ℚ)

/-- A hand in which the Villain open-raises, the Hero 3-bets and then
bets the flop: the Hero is a preflop raiser but not the SOLE one, so the
claim's rule yields no opportunity, while the implementation counts an
opportunity and a continuation bet. -/
def cbetCexHand : HandRecord :=
  { players := ["Hero", "Villain"]
    actions :=
      [ { player := some "Villain", action_type := some "raise",
          street := some "preflop" }
      , { player := some "Hero", action_type := some "raise",
          street := some "preflop" }
      , { player := some "Hero", action_type := some "bet",
          street := some "flop" } ] }

/-- C4 counterexample: on `cbetCexHand` the implementation returns a
c-bet frequency of 100 while the claim's sole-raiser rule yields 0, so
the claim as stated is false of the code. -/
theorem cbet_claim_counterexample :
    (calculate_stats "Hero" [cbetCexHand]).cbet = 100 ∧
      cbetClaimRate "Hero" [cbetCexHand] = 0 ∧ (100 : ℚ) ≠ 0 := by
  refine ⟨?_, rfl, by norm_num⟩
  have h : (calculate_stats "Hero" [cbetCexHand]).cbet =
      (((1 : ℕ) : ℚ) / ((1 : ℕ) : ℚ)) * 100 := rfl
  rw [h]; norm_num

/-- C4 (amended): `calculate_stats(p, H).cbet` counts as an opportunity
every hand (among those with `p` listed) where `p` made at least one
preflop raise — the code does not require `p` to be the SOLE preflop
raiser — and `p` has a flop action, counts as an occurrence those
opportunities where `p`'s first flop action is a bet or raise, and
returns `100 * occurrences / opportunities` (0 when there are no
opportunities). -/
theorem cbet_formula (p : String) (H : List HandRecord) :
    (calculate_stats p H).cbet =
      (if (H.filter (fun h => h.players.contains p)).countP
          (fun h => cbetOppSpec p h) = 0 then 0
       else 100 * ((H.filter (fun h => h.players.contains p)).countP
            (fun h => cbetOccSpec p h) : ℚ) /
          (((H.filter (fun h => h.players.contains p)).countP
            (fun h => cbetOppSpec p h) : ℕ) : ℚ)) := by
  rw [calculate_stats_cbet]
  simp only [calculate_cbet, cbet_isSome_eq, cbet_some_true_eq]
  by_cases hc : (H.filter (fun h => h.players.contains p)).countP
      (fun h => cbetOppSpec p h) = 0
  · rw [if_pos hc, if_pos hc]
  · rw [if_neg hc, if_neg hc]
    ring

/-! ## C6: Aggression factor -/

/-- C6: `calculate_stats(p, H).af` equals the total count of `p`'s bet
and raise actions on any street (the code applies no street filter at
all) divided by the total count of `p`'s call actions on any street, both
totals taken over the hands of `H` that list `p` among their players;
when the call count is 0 the result is the raw bet/raise count (so 3
bets/raises and 0 calls give 3, never a division error), in particular 0
when both counts are 0. -/
theorem af_formula (p : String) (H : List HandRecord) :
    (calculate_stats p H).af =
      (if afCalls p (H.filter (fun h => h.players.contains p)) = 0
       then ((afBetsRaises p (H.filter (fun h => h.players.contains p)) : ℕ) : ℚ)
       else ((afBetsRaises p (H.filter (fun h => h.players.contains p)) : ℕ) : ℚ) /
         ((afCalls p (H.filter (fun h => h.players.contains p)) : ℕ) : ℚ)) := by
  rw [calculate_stats_af]
  simp only [calculate_af]
  by_cases hc : afCalls p (H.filter (fun h => h.players.contains p)) = 0
  · rw [if_pos hc, if_pos hc]
    by_cases hb : afBetsRaises p (H.filter (fun h => h.players.contains p)) > 0
    · rw [if_pos hb]
    · rw [if_neg hb]
      have hz : afBetsRaises p (H.filter (fun h => h.players.contains p)) = 0 := by
        omega
      rw [hz]
      norm_num
  · rw [if_neg hc, if_neg hc]

/-! ## Hand history store (`HandHistory` class) -/

/-- Session hand store.  The Python attributes `_hands`, `_max_hands` and
`_current_hand` are embedded without the underscore prefix. -/
structure HandHistory where
  hands : List HandRecord := []
  max_hands : Nat := 1000
  current_hand : Option HandRecord := none
deriving Repr, DecidableEq

/-- `HandHistory.start_new_hand`: overwrite the open slot with a freshly
created record.  The source builds `HandRecord(session_id=session_id)`
with a fresh uuid-based `hand_id` and the current instant as `timestamp`;
those two environment-supplied values are passed as parameters. -/
def HandHistory.start_new_hand (hh : HandHistory) (session_id : Option String)
    (fresh_id : String) (now : Datetime) : HandHistory :=
  let new_hand : HandRecord :=
    { hand_id := fresh_id, session_id := session_id, timestamp := now }
  { hh with current_hand := some new_hand }

/-- Python slice `l[-m:]` for a natural `m`: for `m = 0` the slice is the
WHOLE list (this is the `[-0:]` pitfall), otherwise the last `m`
elements. -/
def pySliceLast (m : Nat) (l : List α) : List α :=
  if m = 0 then l else l.drop (l.length - m)

/-- `HandHistory.end_hand`: if a hand is open, stamp the result and
winner, append it to the closed list, trim with `self._hands[-self._max_hands:]`
when the length exceeds `max_hands`, and clear the open slot; otherwise
do nothing. -/
def HandHistory.end_hand (hh : HandHistory) (result_bb : ℚ)
    (winner : Option String) : HandHistory :=
  match hh.current_hand with
  | none => hh
  | some h =>
    let h' := { h with result_bb := result_bb, winner := winner }
    let hs := hh.hands ++ [h']
    { hh with
      hands := if hs.length > hh.max_hands then pySliceLast hh.max_hands hs else hs
      current_hand := none }

/-! ## C7: end_hand with no open hand -/

/-- C7: calling `end_hand` when no hand is open is a benign no-op: the
embedded operation is total (the source raises nothing on this path) and
returns the store with both the closed-hands list and the open-hand slot
unchanged. -/
theorem end_hand_no_open_hand_noop (hh : HandHistory) (result_bb : ℚ)
    (winner : Option String) (hopen : hh.current_hand = none) :
    hh.end_hand result_bb winner = hh := by
  unfold HandHistory.end_hand
  rw [hopen]

/-- C7 witness: a concrete store with one closed hand and nothing open is
returned unchanged by `end_hand`. -/
theorem end_hand_no_open_hand_noop_witness :
    HandHistory.end_hand
        { hands := [{ hand_id := "h1" }], max_hands := 2, current_hand := none }
        (5 : ℚ) (some "Hero") =
      { hands := [{ hand_id := "h1" }], max_hands := 2, current_hand := none } :=
  end_hand_no_open_hand_noop
    { hands := [{ hand_id := "h1" }], max_hands := 2, current_hand := none }
    (5 : ℚ) (some "Hero") rfl

/-! ## C5: capacity law -/

/-- The last `m` elements of a list (all of it when `m ≥ length`). -/
def lastN (m : Nat) (l : List α) : List α := l.drop (l.length - m)

/-- Appending one element to a `lastN m`-trimmed list and re-trimming is
the same as trimming the un-trimmed append (for a positive capacity). -/
theorem lastN_append_singleton (m : Nat) (hm : 1 ≤ m) (l : List α) (x : α) :
    lastN m (lastN m l ++ [x]) = lastN m (l ++ [x]) := by
  by_cases hml : l.length ≤ m
  · have h0 : l.length - m = 0 := by omega
    simp [lastN, h0]
  · unfold lastN
    have hlen : (List.drop (l.length - m) l).length = m := by
      rw [List.length_drop]; omega
    rw [List.length_append, List.length_append, hlen]
    have h1 : m + [x].length - m = 1 := by simp
    rw [h1]
    have h2 : (1 : Nat) ≤ (List.drop (l.length - m) l).length := by omega
    rw [List.drop_append_of_le_length h2, List.drop_drop]
    have h3 : l.length + [x].length - m = (l.length - m) + 1 := by
      simp; omega
    rw [h3]
    have h4 : l.length - m + 1 ≤ l.length := by omega
    rw [List.drop_append_of_le_length h4]

/-- The environment-supplied data of one start/end pair: what the
automation layer feeds `start_new_hand` (session id, fresh hand id,
current instant) and `end_hand` (result, winner). -/
structure HandInput where
  session_id : Option String := none
  fresh_id : String := ""
  now : Datetime := ⟨""⟩
  result_bb : ℚ := 0
  winner : Option String := none
deriving Repr, DecidableEq

/-- The finalized record a start/end pair appends to the store. -/
def HandInput.record (i : HandInput) : HandRecord :=
  { hand_id := i.fresh_id, session_id := i.session_id, timestamp := i.now,
    result_bb := i.result_bb, winner := i.winner }

/-- Run a sequence of `start_new_hand`/`end_hand` pairs. -/
def runPairs (hh : HandHistory) (ins : List HandInput) : HandHistory :=
  ins.foldl (fun s i =>
    (s.start_new_hand i.session_id i.fresh_id i.now).end_hand
      i.result_bb i.winner) hh

/-- One start/end pair, on a store with positive capacity, appends the
finalized record and keeps the last `max_hands` records. -/
theorem startEnd_state (hh : HandHistory) (hm : 1 ≤ hh.max_hands)
    (i : HandInput) :
    (hh.start_new_hand i.session_id i.fresh_id i.now).end_hand
        i.result_bb i.winner =
      { hands := lastN hh.max_hands (hh.hands ++ [i.record]),
        max_hands := hh.max_hands, current_hand := none } := by
  unfold HandHistory.start_new_hand HandHistory.end_hand HandInput.record
  simp only [HandHistory.mk.injEq, and_true, true_and]
  split
  next hgt =>
    unfold pySliceLast
    rw [if_neg (by omega)]
    rfl
  next hgt =>
    unfold lastN
    rw [Nat.sub_eq_zero_of_le (Nat.not_lt.mp hgt), List.drop_zero]

/-- Invariant of the start/end loop: with positive capacity the closed
list is always the last `max_hands` of everything ever appended. -/
theorem runPairs_hands (m : Nat) (hm : 1 ≤ m) (ins : List HandInput) :
    ∀ (l : List HandRecord) (c : Option HandRecord),
      (runPairs { hands := lastN m l, max_hands := m, current_hand := c }
          ins).hands =
        lastN m (l ++ ins.map HandInput.record) := by
  induction ins with
  | nil => intro l c; simp [runPairs]
  | cons i t ih =>
    intro l c
    simp only [runPairs, List.foldl_cons]
    rw [startEnd_state _ hm i, lastN_append_singleton m hm]
    have h := ih (l ++ [i.record]) none
    simp only [runPairs] at h
    rw [h, List.append_assoc, List.singleton_append, List.map_cons]

/-- C5 counterexample: with capacity `max_hands = 0`, a single
start/end pair leaves ONE hand in the store — the Python trim
`self._hands[-self._max_hands:]` is `[-0:]`, the whole list, so nothing
is ever evicted and the length exceeds the capacity, contrary to the
claim's "for every HandHistory store" and its "length never exceeds
max_hands". -/
theorem hand_history_capacity_counterexample :
    (runPairs { hands := [], max_hands := 0, current_hand := none }
        [{ fresh_id := "a" }]).hands.length = 1 ∧
      (runPairs { hands := [], max_hands := 0, current_hand := none }
        [{ fresh_id := "a" }]).hands ≠ [] := by
  constructor
  · rfl
  · decide

/-- C5 (amended): for every store constructed with capacity
`max_hands ≥ 1` (the embedded capacity is a natural number; the Python
`[-max_hands:]` trim is broken only for `max_hands = 0`) and every
sequence of `N > max_hands` start/end pairs, the closed list afterwards
is exactly the most recent `max_hands` finalized hands in chronological
order, and its length is exactly `max_hands` (in particular it never
exceeds it: the equation of `runPairs_hands` holds for every prefix of
the sequence, i.e. after every operation). -/
theorem hand_history_capacity (m : Nat) (hm : 1 ≤ m) (ins : List HandInput)
    (hlen : m < ins.length) :
    (runPairs { hands := [], max_hands := m, current_hand := none }
        ins).hands =
      (ins.map HandInput.record).drop (ins.length - m) ∧
    (runPairs { hands := [], max_hands := m, current_hand := none }
        ins).hands.length = m := by
  have h := runPairs_hands m hm ins [] none
  simp only [lastN, List.drop_nil, List.nil_append, List.length_map] at h
  constructor
  · exact h
  · rw [h, List.length_drop, List.length_map]
    omega

/-- C5 witness: capacity 1, two pairs; the store retains exactly the
second finalized hand. -/
theorem hand_history_capacity_witness :
    (runPairs { hands := [], max_hands := 1, current_hand := none }
        [{ fresh_id := "a" }, { fresh_id := "b" }]).hands =
      ([({ fresh_id := "a" } : HandInput), { fresh_id := "b" }].map
        HandInput.record).drop
          ([({ fresh_id := "a" } : HandInput), { fresh_id := "b" }].length - 1) :=
  (hand_history_capacity 1 (by decide) [{ fresh_id := "a" }, { fresh_id := "b" }]
    (by decide)).1

/-! ## C8: player classification -/

/-- A player at the table (`Player` dataclass). -/
structure Player where
  name : String
  seat : Int := 0
  stack : ℚ := 0
  is_hero : Bool := false
  position : Option String := none
  stats : PlayerStats := {}
  last_updated : Option Datetime := none
  notes : String := ""
deriving Repr, DecidableEq

/-- `Player.is_tight`: vpip < 20 and hands >= 20. -/
def Player.is_tight (pl : Player) : Bool :=
  decide (pl.stats.vpip < 20 ∧ pl.stats.hands ≥ 20)

/-- `Player.is_loose`: vpip > 35 and hands >= 20. -/
def Player.is_loose (pl : Player) : Bool :=
  decide (pl.stats.vpip > 35 ∧ pl.stats.hands ≥ 20)

/-- `Player.is_aggressive`: af > 2.5 and hands >= 20. -/
def Player.is_aggressive (pl : Player) : Bool :=
  decide (pl.stats.af > 2.5 ∧ pl.stats.hands ≥ 20)

/-- `Player.is_passive`: af < 1.5 and hands >= 20. -/
def Player.is_passive (pl : Player) : Bool :=
  decide (pl.stats.af < 1.5 ∧ pl.stats.hands ≥ 20)

/-- `Player.get_player_type`: the coarser threshold pair vpip < 25 and
af > 2.0, gated on hands >= 20, bucketing into four quadrants. -/
def Player.get_player_type (pl : Player) : String :=
  if pl.stats.hands < 20 then "Unknown"
  else
    let tight : Bool := decide (pl.stats.vpip < 25)
    let aggressive : Bool := decide (pl.stats.af > 2)
    if tight && aggressive then "TAG (Tight Aggressive)"
    else if tight && !aggressive then "TP (Tight Passive)"
    else if !tight && aggressive then "LAG (Loose Aggressive)"
    else "LP (Loose Passive)"

/-- C8: below 20 hands every classification predicate returns false and
the player type is "Unknown"; from 20 hands on, is_tight iff vpip < 20,
is_loose iff vpip > 35, is_aggressive iff af > 2.5, is_passive iff
af < 1.5, while get_player_type buckets the four quadrants with the
distinct coarser pair vpip < 25 and af > 2. -/
theorem player_classification (pl : Player) :
    (pl.stats.hands < 20 →
      pl.is_tight = false ∧ pl.is_loose = false ∧ pl.is_aggressive = false ∧
      pl.is_passive = false ∧ pl.get_player_type = "Unknown") ∧
    (20 ≤ pl.stats.hands →
      ((pl.is_tight = true ↔ pl.stats.vpip < 20) ∧
       (pl.is_loose = true ↔ pl.stats.vpip > 35) ∧
       (pl.is_aggressive = true ↔ pl.stats.af > 2.5) ∧
       (pl.is_passive = true ↔ pl.stats.af < 1.5) ∧
       pl.get_player_type =
         (if pl.stats.vpip < 25 then
            if pl.stats.af > 2 then "TAG (Tight Aggressive)"
            else "TP (Tight Passive)"
          else
            if pl.stats.af > 2 then "LAG (Loose Aggressive)"
            else "LP (Loose Passive)"))) := by
  constructor
  · intro hlt
    have hn : ¬ pl.stats.hands ≥ 20 := by omega
    refine ⟨?_, ?_, ?_, ?_, ?_⟩ <;>
      simp [Player.is_tight, Player.is_loose, Player.is_aggressive,
        Player.is_passive, Player.get_player_type, hn, hlt]
  · intro hge
    have hn : ¬ pl.stats.hands < 20 := by omega
    refine ⟨?_, ?_, ?_, ?_, ?_⟩ <;>
      simp [Player.is_tight, Player.is_loose, Player.is_aggressive,
        Player.is_passive, Player.get_player_type, hge, hn]
    by_cases ht : pl.stats.vpip < 25 <;> by_cases ha : pl.stats.af > 2 <;>
      simp [ht, ha]

/-- C8 witness: a concrete player with a five-hand sample is classified
"Unknown" and all four predicates are false. -/
theorem player_classification_witness :
    Player.is_tight { name := "New", stats := { hands := 5, vpip := 30, af := 2 } } = false ∧
    Player.get_player_type
        { name := "New", stats := { hands := 5, vpip := 30, af := 2 } } = "Unknown" := by
  have h := (player_classification
    { name := "New", stats := { hands := 5, vpip := 30, af := 2 } }).1 (by norm_num)
  exact ⟨h.1, h.2.2.2.2⟩

/-! ## C9: serialization round-trips -/

/-- The plain mapping `PlayerStats.to_dict` builds: it carries EXACTLY
these nine keys (`hands` plus the eight rate statistics) — none of the
tracking counters and not the per-position breakdown. -/
structure StatsDict where
  hands : Nat
  vpip : ℚ
  pfr : ℚ
  three_bet : ℚ
  fold_to_3bet : ℚ
  af : ℚ
  wtsd : ℚ
  wssd : ℚ
  cbet : ℚ
deriving Repr, DecidableEq

/-- `PlayerStats.to_dict`. -/
def PlayerStats.to_dict (s : PlayerStats) : StatsDict :=
  { hands := s.hands, vpip := s.vpip, pfr := s.pfr, three_bet := s.three_bet,
    fold_to_3bet := s.fold_to_3bet, af := s.af, wtsd := s.wtsd,
    wssd := s.wssd, cbet := s.cbet }

/-- `PlayerStats.from_dict` on a `to_dict`-shaped mapping: the source
iterates the mapping's items and `setattr`s every key that is an
attribute; all nine keys are attributes, so they are assigned and every
other dataclass field keeps its default. -/
def PlayerStats.from_dict (d : StatsDict) : PlayerStats :=
  { hands := d.hands, vpip := d.vpip, pfr := d.pfr, three_bet := d.three_bet,
    fold_to_3bet := d.fold_to_3bet, af := d.af, wtsd := d.wtsd,
    wssd := d.wssd, cbet := d.cbet }

/-- The plain mapping `HandRecord.to_dict` builds / `HandRecord.from_dict`
reads.  An outer `none` models an absent key (`from_dict` reads every key
through `dict.get` with a default); the timestamp is stored as its
ISO-8601 text. -/
structure HandRecordDict where
  hand_id : Option String := none
  session_id : Option (Option String) := none
  timestamp : Option String := none
  hero_cards : Option (List String) := none
  board : Option (List String) := none
  players : Option (List String) := none
  hero_position : Option (Option String) := none
  small_blind : Option ℚ := none
  big_blind : Option ℚ := none
  actions : Option (List ActionDict) := none
  result_bb : Option ℚ := none
  winner : Option (Option String) := none
  went_to_showdown : Option Bool := none
  ai_action : Option (Option String) := none
  ai_reasoning : Option (Option String) := none
  ai_confidence : Option (Option ℚ) := none
deriving Repr, DecidableEq

/-- `HandRecord.to_dict`: every key is present. -/
def HandRecord.to_dict (h : HandRecord) : HandRecordDict :=
  { hand_id := some h.hand_id
    session_id := some h.session_id
    timestamp := some h.timestamp.isoformat
    hero_cards := some h.hero_cards
    board := some h.board
    players := some h.players
    hero_position := some h.hero_position
    small_blind := some h.small_blind
    big_blind := some h.big_blind
    actions := some h.actions
    result_bb := some h.result_bb
    winner := some h.winner
    went_to_showdown := some h.went_to_showdown
    ai_action := some h.ai_action
    ai_reasoning := some h.ai_reasoning
    ai_confidence := some h.ai_confidence }

/-- `HandRecord.from_dict`.  The source defaults `hand_id` to a fresh
uuid prefix and, when the timestamp entry is absent or falsy (the empty
string), falls back to `datetime.now()`; the environment-supplied values
are the parameters `fresh` and `now`. -/
def HandRecord.from_dict (fresh : String) (now : Datetime)
    (d : HandRecordDict) : HandRecord :=
  { hand_id := d.hand_id.getD fresh
    session_id := d.session_id.getD none
    timestamp :=
      match d.timestamp with
      | some s => if s ≠ "" then Datetime.fromisoformat s else now
      | none => now
    hero_cards := d.hero_cards.getD []
    board := d.board.getD []
    players := d.players.getD []
    hero_position := d.hero_position.getD none
    small_blind := d.small_blind.getD 0
    big_blind := d.big_blind.getD 0
    actions := d.actions.getD []
    result_bb := d.result_bb.getD 0
    winner := d.winner.getD none
    went_to_showdown := d.went_to_showdown.getD false
    ai_action := d.ai_action.getD none
    ai_reasoning := d.ai_reasoning.getD none
    ai_confidence := d.ai_confidence.getD none }

/-- C9 counterexample: a `PlayerStats` whose tracking counter
`vpip_count` is 1 does NOT survive `from_dict (to_dict s)` — the mapping
carries only the nine display keys, so the counter comes back as 0.  The
claim's "including ... tracking counters" is therefore false of the
code. -/
theorem stats_roundtrip_counterexample :
    PlayerStats.from_dict (PlayerStats.to_dict { vpip_count := 1 }) ≠
      ({ vpip_count := 1 } : PlayerStats) := by
  decide

/-- C9 (amended): `HandRecord` round-trips losslessly through its plain
mapping (for any well-formed timestamp, i.e. one whose ISO text is not
empty — library `isoformat` never returns the empty string), while
`PlayerStats` round-trips ONLY `hands` and the nine rate statistics: the
tracking counters and the per-position breakdown are reset to their
dataclass defaults. -/
theorem serialization_roundtrip :
    (∀ (h : HandRecord) (fresh : String) (now : Datetime),
        h.timestamp.iso ≠ "" →
          HandRecord.from_dict fresh now h.to_dict = h) ∧
    (∀ s : PlayerStats,
        PlayerStats.from_dict s.to_dict =
          { hands := s.hands, vpip := s.vpip, pfr := s.pfr,
            three_bet := s.three_bet, fold_to_3bet := s.fold_to_3bet,
            af := s.af, wtsd := s.wtsd, wssd := s.wssd, cbet := s.cbet }) := by
  constructor
  · intro h fresh now hne
    unfold HandRecord.from_dict HandRecord.to_dict
    simp [Datetime.isoformat, Datetime.fromisoformat, hne]
  · intro s
    rfl

/-- C9 witness: a concrete hand record with a non-empty timestamp
round-trips exactly. -/
theorem serialization_roundtrip_witness :
    HandRecord.from_dict "fresh" ⟨"t0"⟩
        (HandRecord.to_dict
          { hand_id := "h1", timestamp := ⟨"2026-01-01T00:00:00"⟩,
            players := ["A", "B"] }) =
      { hand_id := "h1", timestamp := ⟨"2026-01-01T00:00:00"⟩,
        players := ["A", "B"] } :=
  serialization_roundtrip.1 _ "fresh" ⟨"t0"⟩ (by decide)
